import Mathlib

/-!
Verification of the CVNN computational-complexity module (`cvnn_complexity.py`).

The module exposes six pure functions, each returning a pair
(training FLOPs, inference FLOPs) computed by closed-form arithmetic over
layer-width integers.  We embed the Python code shallowly:

* Python integers become `Int` (arbitrary precision, like Python's `int`);
* Python list indexing `xs[i]` (which supports negative indices and raises
  `IndexError` when out of range) becomes `pyIdx : List Int → Int → Option Int`;
* `sum([... for l in range(a, b)])` becomes `pyListSum` over a mapped
  `List.range'`, propagating the first index error;
* a function that can raise returns `Option (Int × Int)`, with `none`
  standing for an uncaught `IndexError`.
-/

/-- Python list indexing `xs[i]`: a negative index `i` denotes `len(xs) + i`;
an index out of range yields `none` (Python raises `IndexError`). -/
def pyIdx (xs : List Int) (i : Int) : Option Int :=
  if i < 0 then
    if 0 ≤ i + xs.length then xs.get? (i + xs.length).toNat else none
  else
    xs.get? i.toNat

/-- Python's `sum` over a list comprehension whose elements may raise:
the first `none` (IndexError) aborts the whole computation. -/
def pyListSum : List (Option Int) → Option Int
  | [] => some 0
  | x :: xs => do
      let v ← x
      let s ← pyListSum xs
      pure (v + s)

/-- `cvfnn_complexity(I)` from `cvnn_complexity.py` (lines 26–55):
`t = 4*sum([I[l]*(2*I[l-1]+I[l+1]+2) for l in range(1,len(I)-1)]) + 8*I[-1]*(I[-2]+1)`,
`i = 4*sum([I[l]*I[l-1] for l in range(1,len(I))])`. -/
def cvfnn_complexity (I : List Int) : Option (Int × Int) := do
  let tSum ← pyListSum ((List.range' 1 (I.length - 2)).map (fun (l : Nat) => do
      let a ← pyIdx I l
      let b ← pyIdx I ((l : Int) - 1)
      let c ← pyIdx I ((l : Int) + 1)
      pure (a * (2 * b + c + 2))))
  let iN1 ← pyIdx I (-1)
  let iN2 ← pyIdx I (-2)
  let t := 4 * tSum + 8 * iN1 * (iN2 + 1)
  let iSum ← pyListSum ((List.range' 1 (I.length - 1)).map (fun (l : Nat) => do
      let a ← pyIdx I l
      let b ← pyIdx I ((l : Int) - 1)
      pure (a * b)))
  let i := 4 * iSum
  pure (t, i)

/-- `scfnn_complexity(I)` from `cvnn_complexity.py` (lines 58–87):
same interior sum and inference sum as CVFNN, output term `2*I[-1]*(4*I[-2]+3)`. -/
def scfnn_complexity (I : List Int) : Option (Int × Int) := do
  let tSum ← pyListSum ((List.range' 1 (I.length - 2)).map (fun (l : Nat) => do
      let a ← pyIdx I l
      let b ← pyIdx I ((l : Int) - 1)
      let c ← pyIdx I ((l : Int) + 1)
      pure (a * (2 * b + c + 2))))
  let iN1 ← pyIdx I (-1)
  let iN2 ← pyIdx I (-2)
  let t := 4 * tSum + 2 * iN1 * (4 * iN2 + 3)
  let iSum ← pyListSum ((List.range' 1 (I.length - 1)).map (fun (l : Nat) => do
      let a ← pyIdx I l
      let b ← pyIdx I ((l : Int) - 1)
      pure (a * b)))
  let i := 4 * iSum
  pure (t, i)

/-- `mlmvn_complexity(I)` from `cvnn_complexity.py` (lines 90–119):
`t = 4*sum([I[l]*(2*I[l-1]+I[l+1]+4) ...]) + 4*I[-1]*(2*I[-2]+3)`,
`i = 4*sum([I[l]*(I[l-1]+1) for l in range(1,len(I))])`. -/
def mlmvn_complexity (I : List Int) : Option (Int × Int) := do
  let tSum ← pyListSum ((List.range' 1 (I.length - 2)).map (fun (l : Nat) => do
      let a ← pyIdx I l
      let b ← pyIdx I ((l : Int) - 1)
      let c ← pyIdx I ((l : Int) + 1)
      pure (a * (2 * b + c + 4))))
  let iN1 ← pyIdx I (-1)
  let iN2 ← pyIdx I (-2)
  let t := 4 * tSum + 4 * iN1 * (2 * iN2 + 3)
  let iSum ← pyListSum ((List.range' 1 (I.length - 1)).map (fun (l : Nat) => do
      let a ← pyIdx I l
      let b ← pyIdx I ((l : Int) - 1)
      pure (a * (b + 1))))
  let i := 4 * iSum
  pure (t, i)

/-- `crbf_complexity(inp, neurons, out)` from `cvnn_complexity.py` (lines 122–152):
`t = neurons*(4*inp+6*out+5)+4*out`, `i = neurons*(2*inp+2*out+1)`.
Pure scalar arithmetic: it cannot raise. -/
def crbf_complexity (inp neurons out : Int) : Int × Int :=
  (neurons * (4 * inp + 6 * out + 5) + 4 * out,
   neurons * (2 * inp + 2 * out + 1))

/-- `fcrbf_complexity(inp, neurons, out)` from `cvnn_complexity.py` (lines 155–185):
`t = 12*neurons*(inp+out+1)+4*out`, `i = 4*neurons*(inp+out)`. -/
def fcrbf_complexity (inp neurons out : Int) : Int × Int :=
  (12 * neurons * (inp + out + 1) + 4 * out,
   4 * neurons * (inp + out))

/-- The body of `ptrbf_complexity` after the line `I = [0] + I`: the sums of
lines 215–219 of `cvnn_complexity.py`, taking the already-prepended list. -/
def ptrbf_body (I O : List Int) : Option (Int × Int) := do
  let tSum1 ← pyListSum ((List.range' 1 (I.length - 1)).map (fun (l : Nat) => do
      let a ← pyIdx I l
      let b ← pyIdx O ((l : Int) - 1)
      let c ← pyIdx O l
      pure (a * (b + 3 * c + 3))))
  let tSum2 ← pyListSum ((List.range' 1 (I.length - 2)).map (fun (l : Nat) => do
      let a ← pyIdx O l
      let b ← pyIdx I ((l : Int) + 1)
      pure (a * (b + 1))))
  let oN1 ← pyIdx O (-1)
  let t := 4 * tSum1 + 4 * tSum2 + 4 * oN1
  let iSum ← pyListSum ((List.range' 1 (I.length - 1)).map (fun (l : Nat) => do
      let a ← pyIdx I l
      let b ← pyIdx O ((l : Int) - 1)
      let c ← pyIdx O l
      pure (a * (b + 2 * c + 1))))
  let i := 2 * iSum
  pure (t, i)

/-- `ptrbf_complexity(I, O)` from `cvnn_complexity.py` (lines 188–222):
first rebinds `I = [0] + I` (a fresh list; the caller's list is untouched),
then evaluates the sums of `ptrbf_body`. -/
def ptrbf_complexity (I O : List Int) : Option (Int × Int) :=
  ptrbf_body (0 :: I) O

/-- A minimal heap of Python list objects: references are numbers below `next`,
and `objs` gives each object's current contents.  This models the aliasing
question for `ptrbf_complexity`: does the call mutate the caller's lists? -/
structure PyHeap where
  objs : Nat → List Int
  next : Nat

/-- Allocate a fresh list object on the heap, returning the new heap and the
fresh reference. -/
def pyAlloc (h : PyHeap) (v : List Int) : PyHeap × Nat :=
  (⟨fun n => if n = h.next then v else h.objs n, h.next + 1⟩, h.next)

/-- Heap-level model of `ptrbf_complexity`: the caller passes references `rI`,
`rO` to its list objects.  Line 212, `I = [0] + I`, evaluates `[0] + I` to a
freshly allocated list object and rebinds the local name `I` to it; no
in-place operation on the object behind `rI` or `rO` occurs. -/
def ptrbf_complexity_heap (h : PyHeap) (rI rO : Nat) : PyHeap × Option (Int × Int) :=
  let p := pyAlloc h (0 :: h.objs rI)
  (p.1, ptrbf_body (p.1.objs p.2) (p.1.objs rO))

/-- A concrete two-object heap holding the lists of the PT-RBF literal
scenario, used to instantiate the no-mutation theorem. -/
def heapExample : PyHeap :=
  ⟨fun n => if n = 0 then [50, 50] else if n = 1 then [6, 50, 3] else [], 2⟩

/-! ### The spec's closed formulas, transcribed from the spec text. -/

/-- Spec formula for the CVFNN training cost:
`4 * Σ_{l=1}^{len-2} I[l]*(2*I[l-1] + I[l+1] + 2) + 8*I[-1]*(I[-2]+1)`. -/
def specCvfnnT (I : List Int) : Int :=
  4 * ((List.range' 1 (I.length - 2)).map (fun l =>
      I.getD l 0 * (2 * I.getD (l - 1) 0 + I.getD (l + 1) 0 + 2))).sum
  + 8 * I.getD (I.length - 1) 0 * (I.getD (I.length - 2) 0 + 1)

/-- Spec formula for the CVFNN/SCFNN inference cost:
`4 * Σ_{l=1}^{len-1} I[l]*I[l-1]`. -/
def specFnnInf (I : List Int) : Int :=
  4 * ((List.range' 1 (I.length - 1)).map (fun l =>
      I.getD l 0 * I.getD (l - 1) 0)).sum

/-- Spec formula for the SCFNN training cost: same interior sum as CVFNN,
output term `2*I[-1]*(4*I[-2]+3)`. -/
def specScfnnT (I : List Int) : Int :=
  4 * ((List.range' 1 (I.length - 2)).map (fun l =>
      I.getD l 0 * (2 * I.getD (l - 1) 0 + I.getD (l + 1) 0 + 2))).sum
  + 2 * I.getD (I.length - 1) 0 * (4 * I.getD (I.length - 2) 0 + 3)

/-- Spec formula for the MLMVN training cost:
`4 * Σ_{l=1}^{len-2} I[l]*(2*I[l-1] + I[l+1] + 4) + 4*I[-1]*(2*I[-2]+3)`. -/
def specMlmvnT (I : List Int) : Int :=
  4 * ((List.range' 1 (I.length - 2)).map (fun l =>
      I.getD l 0 * (2 * I.getD (l - 1) 0 + I.getD (l + 1) 0 + 4))).sum
  + 4 * I.getD (I.length - 1) 0 * (2 * I.getD (I.length - 2) 0 + 3)

/-- Spec formula for the MLMVN inference cost:
`4 * Σ_{l=1}^{len-1} I[l]*(I[l-1]+1)`. -/
def specMlmvnI (I : List Int) : Int :=
  4 * ((List.range' 1 (I.length - 1)).map (fun l =>
      I.getD l 0 * (I.getD (l - 1) 0 + 1))).sum

/-- Spec formula for the PT-RBF training cost, over the sentinel-prepended
list `I' = 0 :: I`:
`4 * Σ_{l=1}^{len(I')-1} I'[l]*(O[l-1] + 3*O[l] + 3)
 + 4 * Σ_{l=1}^{len(I')-2} O[l]*(I'[l+1] + 1) + 4*O[-1]`. -/
def specPtrbfT (I O : List Int) : Int :=
  4 * ((List.range' 1 ((0 :: I).length - 1)).map (fun l =>
      (0 :: I).getD l 0 * (O.getD (l - 1) 0 + 3 * O.getD l 0 + 3))).sum
  + 4 * ((List.range' 1 ((0 :: I).length - 2)).map (fun l =>
      O.getD l 0 * ((0 :: I).getD (l + 1) 0 + 1))).sum
  + 4 * O.getD (O.length - 1) 0

/-- Spec formula for the PT-RBF inference cost, over `I' = 0 :: I`:
`2 * Σ_{l=1}^{len(I')-1} I'[l]*(O[l-1] + 2*O[l] + 1)`. -/
def specPtrbfI (I O : List Int) : Int :=
  2 * ((List.range' 1 ((0 :: I).length - 1)).map (fun l =>
      (0 :: I).getD l 0 * (O.getD (l - 1) 0 + 2 * O.getD l 0 + 1))).sum

/-! ### Basic lemmas about the Python-semantics helpers -/

lemma get?_eq_some_getD (xs : List Int) (n : Nat) (h : n < xs.length) :
    xs.get? n = some (xs.getD n 0) := by
  rw [List.getD_eq_getElem?_getD, List.get?_eq_getElem?, List.getElem?_eq_getElem h]
  rfl

lemma getD_out (xs : List Int) (j : Nat) (h : xs.length ≤ j) : xs.getD j 0 = 0 := by
  rw [List.getD_eq_getElem?_getD, List.getElem?_eq_none h]
  rfl

lemma getD_nonneg (xs : List Int) (hx : ∀ x ∈ xs, 0 ≤ x) (j : Nat) : 0 ≤ xs.getD j 0 := by
  by_cases h : j < xs.length
  · rw [List.getD_eq_getElem?_getD, List.getElem?_eq_getElem h]
    exact hx _ (List.getElem_mem h)
  · rw [getD_out xs j (by omega)]

lemma pyIdx_lt (xs : List Int) (n : Nat) (h : n < xs.length) :
    pyIdx xs (n : Int) = some (xs.getD n 0) := by
  unfold pyIdx
  rw [if_neg (by omega)]
  have ht : ((n : Int)).toNat = n := Int.toNat_natCast n
  rw [ht, get?_eq_some_getD xs n h]

lemma pyIdx_neg_one (xs : List Int) (h : 1 ≤ xs.length) :
    pyIdx xs (-1) = some (xs.getD (xs.length - 1) 0) := by
  unfold pyIdx
  rw [if_pos (by omega), if_pos (by omega)]
  have ht : ((-1 : Int) + xs.length).toNat = xs.length - 1 := by omega
  rw [ht, get?_eq_some_getD xs _ (by omega)]

lemma pyIdx_neg_two (xs : List Int) (h : 2 ≤ xs.length) :
    pyIdx xs (-2) = some (xs.getD (xs.length - 2) 0) := by
  unfold pyIdx
  rw [if_pos (by omega), if_pos (by omega)]
  have ht : ((-2 : Int) + xs.length).toNat = xs.length - 2 := by omega
  rw [ht, get?_eq_some_getD xs _ (by omega)]

/-- If every element of the comprehension evaluates without an index error,
the Python sum is the mathematical sum. -/
lemma pyListSum_eq_sum (ls : List Nat) (f : Nat → Option Int) (g : Nat → Int)
    (h : ∀ l ∈ ls, f l = some (g l)) :
    pyListSum (ls.map f) = some ((ls.map g).sum) := by
  induction ls with
  | nil => rfl
  | cons a as ih =>
      have ha := h a (by simp)
      have hrest := ih (fun l hl => h l (by simp [hl]))
      simp [pyListSum, ha, hrest]

/-! ### Closed forms of the embedded functions -/

lemma cvfnn_complexity_eq (I : List Int) (h : 2 ≤ I.length) :
    cvfnn_complexity I = some (specCvfnnT I, specFnnInf I) := by
  have hstepT : ∀ l ∈ List.range' 1 (I.length - 2),
      (do
        let a ← pyIdx I l
        let b ← pyIdx I ((l : Int) - 1)
        let c ← pyIdx I ((l : Int) + 1)
        pure (a * (2 * b + c + 2))) =
      some (I.getD l 0 * (2 * I.getD (l - 1) 0 + I.getD (l + 1) 0 + 2)) := by
    intro l hl
    rw [List.mem_range'_1] at hl
    have e1 : ((l : Int)) - 1 = ((l - 1 : Nat) : Int) := by omega
    have e2 : ((l : Int)) + 1 = ((l + 1 : Nat) : Int) := by omega
    rw [e1, e2, pyIdx_lt I l (by omega), pyIdx_lt I (l - 1) (by omega),
      pyIdx_lt I (l + 1) (by omega)]
    rfl
  have hstepI : ∀ l ∈ List.range' 1 (I.length - 1),
      (do
        let a ← pyIdx I l
        let b ← pyIdx I ((l : Int) - 1)
        pure (a * b)) =
      some (I.getD l 0 * I.getD (l - 1) 0) := by
    intro l hl
    rw [List.mem_range'_1] at hl
    have e1 : ((l : Int)) - 1 = ((l - 1 : Nat) : Int) := by omega
    rw [e1, pyIdx_lt I l (by omega), pyIdx_lt I (l - 1) (by omega)]
    rfl
  have hT := pyListSum_eq_sum _ _ _ hstepT
  have hI := pyListSum_eq_sum _ _ _ hstepI
  unfold cvfnn_complexity
  rw [hT, hI, pyIdx_neg_one I (by omega), pyIdx_neg_two I h]
  rfl

lemma scfnn_complexity_eq (I : List Int) (h : 2 ≤ I.length) :
    scfnn_complexity I = some (specScfnnT I, specFnnInf I) := by
  have hstepT : ∀ l ∈ List.range' 1 (I.length - 2),
      (do
        let a ← pyIdx I l
        let b ← pyIdx I ((l : Int) - 1)
        let c ← pyIdx I ((l : Int) + 1)
        pure (a * (2 * b + c + 2))) =
      some (I.getD l 0 * (2 * I.getD (l - 1) 0 + I.getD (l + 1) 0 + 2)) := by
    intro l hl
    rw [List.mem_range'_1] at hl
    have e1 : ((l : Int)) - 1 = ((l - 1 : Nat) : Int) := by omega
    have e2 : ((l : Int)) + 1 = ((l + 1 : Nat) : Int) := by omega
    rw [e1, e2, pyIdx_lt I l (by omega), pyIdx_lt I (l - 1) (by omega),
      pyIdx_lt I (l + 1) (by omega)]
    rfl
  have hstepI : ∀ l ∈ List.range' 1 (I.length - 1),
      (do
        let a ← pyIdx I l
        let b ← pyIdx I ((l : Int) - 1)
        pure (a * b)) =
      some (I.getD l 0 * I.getD (l - 1) 0) := by
    intro l hl
    rw [List.mem_range'_1] at hl
    have e1 : ((l : Int)) - 1 = ((l - 1 : Nat) : Int) := by omega
    rw [e1, pyIdx_lt I l (by omega), pyIdx_lt I (l - 1) (by omega)]
    rfl
  have hT := pyListSum_eq_sum _ _ _ hstepT
  have hI := pyListSum_eq_sum _ _ _ hstepI
  unfold scfnn_complexity
  rw [hT, hI, pyIdx_neg_one I (by omega), pyIdx_neg_two I h]
  rfl

lemma mlmvn_complexity_eq (I : List Int) (h : 2 ≤ I.length) :
    mlmvn_complexity I = some (specMlmvnT I, specMlmvnI I) := by
  have hstepT : ∀ l ∈ List.range' 1 (I.length - 2),
      (do
        let a ← pyIdx I l
        let b ← pyIdx I ((l : Int) - 1)
        let c ← pyIdx I ((l : Int) + 1)
        pure (a * (2 * b + c + 4))) =
      some (I.getD l 0 * (2 * I.getD (l - 1) 0 + I.getD (l + 1) 0 + 4)) := by
    intro l hl
    rw [List.mem_range'_1] at hl
    have e1 : ((l : Int)) - 1 = ((l - 1 : Nat) : Int) := by omega
    have e2 : ((l : Int)) + 1 = ((l + 1 : Nat) : Int) := by omega
    rw [e1, e2, pyIdx_lt I l (by omega), pyIdx_lt I (l - 1) (by omega),
      pyIdx_lt I (l + 1) (by omega)]
    rfl
  have hstepI : ∀ l ∈ List.range' 1 (I.length - 1),
      (do
        let a ← pyIdx I l
        let b ← pyIdx I ((l : Int) - 1)
        pure (a * (b + 1))) =
      some (I.getD l 0 * (I.getD (l - 1) 0 + 1)) := by
    intro l hl
    rw [List.mem_range'_1] at hl
    have e1 : ((l : Int)) - 1 = ((l - 1 : Nat) : Int) := by omega
    rw [e1, pyIdx_lt I l (by omega), pyIdx_lt I (l - 1) (by omega)]
    rfl
  have hT := pyListSum_eq_sum _ _ _ hstepT
  have hI := pyListSum_eq_sum _ _ _ hstepI
  unfold mlmvn_complexity
  rw [hT, hI, pyIdx_neg_one I (by omega), pyIdx_neg_two I h]
  rfl

lemma ptrbf_complexity_eq (I O : List Int) (h : O.length = I.length + 1) :
    ptrbf_complexity I O = some (specPtrbfT I O, specPtrbfI I O) := by
  have hlen : (0 :: I).length = I.length + 1 := rfl
  have hstepT1 : ∀ l ∈ List.range' 1 ((0 :: I).length - 1),
      (do
        let a ← pyIdx (0 :: I) l
        let b ← pyIdx O ((l : Int) - 1)
        let c ← pyIdx O l
        pure (a * (b + 3 * c + 3))) =
      some ((0 :: I).getD l 0 * (O.getD (l - 1) 0 + 3 * O.getD l 0 + 3)) := by
    intro l hl
    rw [List.mem_range'_1, hlen] at hl
    have e1 : ((l : Int)) - 1 = ((l - 1 : Nat) : Int) := by omega
    rw [e1, pyIdx_lt (0 :: I) l (by rw [hlen]; omega),
      pyIdx_lt O (l - 1) (by omega), pyIdx_lt O l (by omega)]
    rfl
  have hstepT2 : ∀ l ∈ List.range' 1 ((0 :: I).length - 2),
      (do
        let a ← pyIdx O l
        let b ← pyIdx (0 :: I) ((l : Int) + 1)
        pure (a * (b + 1))) =
      some (O.getD l 0 * ((0 :: I).getD (l + 1) 0 + 1)) := by
    intro l hl
    rw [List.mem_range'_1, hlen] at hl
    have e2 : ((l : Int)) + 1 = ((l + 1 : Nat) : Int) := by omega
    rw [e2, pyIdx_lt O l (by omega), pyIdx_lt (0 :: I) (l + 1) (by rw [hlen]; omega)]
    rfl
  have hstepI : ∀ l ∈ List.range' 1 ((0 :: I).length - 1),
      (do
        let a ← pyIdx (0 :: I) l
        let b ← pyIdx O ((l : Int) - 1)
        let c ← pyIdx O l
        pure (a * (b + 2 * c + 1))) =
      some ((0 :: I).getD l 0 * (O.getD (l - 1) 0 + 2 * O.getD l 0 + 1)) := by
    intro l hl
    rw [List.mem_range'_1, hlen] at hl
    have e1 : ((l : Int)) - 1 = ((l - 1 : Nat) : Int) := by omega
    rw [e1, pyIdx_lt (0 :: I) l (by rw [hlen]; omega),
      pyIdx_lt O (l - 1) (by omega), pyIdx_lt O l (by omega)]
    rfl
  have hT1 := pyListSum_eq_sum _ _ _ hstepT1
  have hT2 := pyListSum_eq_sum _ _ _ hstepT2
  have hI := pyListSum_eq_sum _ _ _ hstepI
  unfold ptrbf_complexity ptrbf_body
  rw [hT1, hT2, hI, pyIdx_neg_one O (by omega)]
  rfl

/-! ### Helpers for `List.set` and non-negativity -/

lemma getD_set_same (I : List Int) (k : Nat) (v : Int) (hk : k < I.length) :
    (I.set k v).getD k 0 = v := by
  rw [List.getD_eq_getElem?_getD, List.getElem?_set, if_pos rfl, if_pos hk]
  rfl

lemma getD_set_other (I : List Int) (k : Nat) (v : Int) (j : Nat) (h : j ≠ k) :
    (I.set k v).getD j 0 = I.getD j 0 := by
  rw [List.getD_eq_getElem?_getD, List.getElem?_set, if_neg (fun hh => h hh.symm),
    ← List.getD_eq_getElem?_getD]

lemma sum_map_nonneg (ls : List Nat) (g : Nat → Int) (h : ∀ l ∈ ls, 0 ≤ g l) :
    0 ≤ (ls.map g).sum := by
  apply List.sum_nonneg
  intro x hx
  obtain ⟨l, hl, rfl⟩ := List.mem_map.1 hx
  exact h l hl

lemma specCvfnnT_nonneg (I : List Int) (hnn : ∀ x ∈ I, 0 ≤ x) : 0 ≤ specCvfnnT I := by
  unfold specCvfnnT
  have hS := sum_map_nonneg (List.range' 1 (I.length - 2))
    (fun l => I.getD l 0 * (2 * I.getD (l - 1) 0 + I.getD (l + 1) 0 + 2))
    (fun l _ => mul_nonneg (getD_nonneg I hnn l)
      (by
        have h1 := getD_nonneg I hnn (l - 1)
        have h2 := getD_nonneg I hnn (l + 1)
        linarith))
  have h1 := getD_nonneg I hnn (I.length - 1)
  have h2 := getD_nonneg I hnn (I.length - 2)
  have hprod : 0 ≤ 8 * I.getD (I.length - 1) 0 * (I.getD (I.length - 2) 0 + 1) :=
    mul_nonneg (by linarith) (by linarith)
  linarith

lemma specFnnInf_nonneg (I : List Int) (hnn : ∀ x ∈ I, 0 ≤ x) : 0 ≤ specFnnInf I := by
  unfold specFnnInf
  have hS := sum_map_nonneg (List.range' 1 (I.length - 1))
    (fun l => I.getD l 0 * I.getD (l - 1) 0)
    (fun l _ => mul_nonneg (getD_nonneg I hnn l) (getD_nonneg I hnn (l - 1)))
  linarith

lemma specScfnnT_nonneg (I : List Int) (hnn : ∀ x ∈ I, 0 ≤ x) : 0 ≤ specScfnnT I := by
  unfold specScfnnT
  have hS := sum_map_nonneg (List.range' 1 (I.length - 2))
    (fun l => I.getD l 0 * (2 * I.getD (l - 1) 0 + I.getD (l + 1) 0 + 2))
    (fun l _ => mul_nonneg (getD_nonneg I hnn l)
      (by
        have h1 := getD_nonneg I hnn (l - 1)
        have h2 := getD_nonneg I hnn (l + 1)
        linarith))
  have h1 := getD_nonneg I hnn (I.length - 1)
  have h2 := getD_nonneg I hnn (I.length - 2)
  have hprod : 0 ≤ 2 * I.getD (I.length - 1) 0 * (4 * I.getD (I.length - 2) 0 + 3) :=
    mul_nonneg (by linarith) (by linarith)
  linarith

lemma specMlmvnT_nonneg (I : List Int) (hnn : ∀ x ∈ I, 0 ≤ x) : 0 ≤ specMlmvnT I := by
  unfold specMlmvnT
  have hS := sum_map_nonneg (List.range' 1 (I.length - 2))
    (fun l => I.getD l 0 * (2 * I.getD (l - 1) 0 + I.getD (l + 1) 0 + 4))
    (fun l _ => mul_nonneg (getD_nonneg I hnn l)
      (by
        have h1 := getD_nonneg I hnn (l - 1)
        have h2 := getD_nonneg I hnn (l + 1)
        linarith))
  have h1 := getD_nonneg I hnn (I.length - 1)
  have h2 := getD_nonneg I hnn (I.length - 2)
  have hprod : 0 ≤ 4 * I.getD (I.length - 1) 0 * (2 * I.getD (I.length - 2) 0 + 3) :=
    mul_nonneg (by linarith) (by linarith)
  linarith

lemma specMlmvnI_nonneg (I : List Int) (hnn : ∀ x ∈ I, 0 ≤ x) : 0 ≤ specMlmvnI I := by
  unfold specMlmvnI
  have hS := sum_map_nonneg (List.range' 1 (I.length - 1))
    (fun l => I.getD l 0 * (I.getD (l - 1) 0 + 1))
    (fun l _ => mul_nonneg (getD_nonneg I hnn l)
      (by have h1 := getD_nonneg I hnn (l - 1); linarith))
  linarith

lemma cons_zero_nonneg (I : List Int) (hnn : ∀ x ∈ I, 0 ≤ x) :
    ∀ x ∈ (0 :: I), 0 ≤ x := by
  intro x hx
  rcases List.mem_cons.1 hx with h | h
  · omega
  · exact hnn x h

lemma specPtrbfT_nonneg (I O : List Int) (hnnI : ∀ x ∈ I, 0 ≤ x)
    (hnnO : ∀ x ∈ O, 0 ≤ x) : 0 ≤ specPtrbfT I O := by
  unfold specPtrbfT
  have hI0 := getD_nonneg (0 :: I) (cons_zero_nonneg I hnnI)
  have hO0 := getD_nonneg O hnnO
  have hS1 := sum_map_nonneg (List.range' 1 ((0 :: I).length - 1))
    (fun l => (0 :: I).getD l 0 * (O.getD (l - 1) 0 + 3 * O.getD l 0 + 3))
    (fun l _ => mul_nonneg (hI0 l)
      (by have h1 := hO0 (l - 1); have h2 := hO0 l; linarith))
  have hS2 := sum_map_nonneg (List.range' 1 ((0 :: I).length - 2))
    (fun l => O.getD l 0 * ((0 :: I).getD (l + 1) 0 + 1))
    (fun l _ => mul_nonneg (hO0 l) (by have h1 := hI0 (l + 1); linarith))
  have h3 := hO0 (O.length - 1)
  linarith

lemma specPtrbfI_nonneg (I O : List Int) (hnnI : ∀ x ∈ I, 0 ≤ x)
    (hnnO : ∀ x ∈ O, 0 ≤ x) : 0 ≤ specPtrbfI I O := by
  unfold specPtrbfI
  have hI0 := getD_nonneg (0 :: I) (cons_zero_nonneg I hnnI)
  have hO0 := getD_nonneg O hnnO
  have hS := sum_map_nonneg (List.range' 1 ((0 :: I).length - 1))
    (fun l => (0 :: I).getD l 0 * (O.getD (l - 1) 0 + 2 * O.getD l 0 + 1))
    (fun l _ => mul_nonneg (hI0 l)
      (by have h1 := hO0 (l - 1); have h2 := hO0 l; linarith))
  linarith

/-! ### Monotonicity of the closed formulas under pointwise increase -/

lemma specCvfnnT_mono (I J : List Int) (hlen : J.length = I.length)
    (hI0 : ∀ j, 0 ≤ I.getD j 0) (hJ0 : ∀ j, 0 ≤ J.getD j 0)
    (hle : ∀ j, I.getD j 0 ≤ J.getD j 0) :
    specCvfnnT I ≤ specCvfnnT J := by
  unfold specCvfnnT
  rw [hlen]
  apply add_le_add
  · apply mul_le_mul_of_nonneg_left _ (by norm_num)
    apply List.sum_le_sum
    intro l _
    exact mul_le_mul (hle l) (by linarith [hle (l - 1), hle (l + 1)])
      (by linarith [hI0 (l - 1), hI0 (l + 1)]) (hJ0 l)
  · exact mul_le_mul (by linarith [hle (I.length - 1)])
      (by linarith [hle (I.length - 2)])
      (by linarith [hI0 (I.length - 2)]) (by linarith [hJ0 (I.length - 1)])

lemma specFnnInf_mono (I J : List Int) (hlen : J.length = I.length)
    (hI0 : ∀ j, 0 ≤ I.getD j 0) (hJ0 : ∀ j, 0 ≤ J.getD j 0)
    (hle : ∀ j, I.getD j 0 ≤ J.getD j 0) :
    specFnnInf I ≤ specFnnInf J := by
  unfold specFnnInf
  rw [hlen]
  apply mul_le_mul_of_nonneg_left _ (by norm_num)
  apply List.sum_le_sum
  intro l _
  exact mul_le_mul (hle l) (hle (l - 1)) (hI0 (l - 1)) (hJ0 l)

lemma specScfnnT_mono (I J : List Int) (hlen : J.length = I.length)
    (hI0 : ∀ j, 0 ≤ I.getD j 0) (hJ0 : ∀ j, 0 ≤ J.getD j 0)
    (hle : ∀ j, I.getD j 0 ≤ J.getD j 0) :
    specScfnnT I ≤ specScfnnT J := by
  unfold specScfnnT
  rw [hlen]
  apply add_le_add
  · apply mul_le_mul_of_nonneg_left _ (by norm_num)
    apply List.sum_le_sum
    intro l _
    exact mul_le_mul (hle l) (by linarith [hle (l - 1), hle (l + 1)])
      (by linarith [hI0 (l - 1), hI0 (l + 1)]) (hJ0 l)
  · exact mul_le_mul (by linarith [hle (I.length - 1)])
      (by linarith [hle (I.length - 2)])
      (by linarith [hI0 (I.length - 2)]) (by linarith [hJ0 (I.length - 1)])

lemma specMlmvnT_mono (I J : List Int) (hlen : J.length = I.length)
    (hI0 : ∀ j, 0 ≤ I.getD j 0) (hJ0 : ∀ j, 0 ≤ J.getD j 0)
    (hle : ∀ j, I.getD j 0 ≤ J.getD j 0) :
    specMlmvnT I ≤ specMlmvnT J := by
  unfold specMlmvnT
  rw [hlen]
  apply add_le_add
  · apply mul_le_mul_of_nonneg_left _ (by norm_num)
    apply List.sum_le_sum
    intro l _
    exact mul_le_mul (hle l) (by linarith [hle (l - 1), hle (l + 1)])
      (by linarith [hI0 (l - 1), hI0 (l + 1)]) (hJ0 l)
  · exact mul_le_mul (by linarith [hle (I.length - 1)])
      (by linarith [hle (I.length - 2)])
      (by linarith [hI0 (I.length - 2)]) (by linarith [hJ0 (I.length - 1)])

lemma specMlmvnI_mono (I J : List Int) (hlen : J.length = I.length)
    (hI0 : ∀ j, 0 ≤ I.getD j 0) (hJ0 : ∀ j, 0 ≤ J.getD j 0)
    (hle : ∀ j, I.getD j 0 ≤ J.getD j 0) :
    specMlmvnI I ≤ specMlmvnI J := by
  unfold specMlmvnI
  rw [hlen]
  apply mul_le_mul_of_nonneg_left _ (by norm_num)
  apply List.sum_le_sum
  intro l _
  exact mul_le_mul (hle l) (by linarith [hle (l - 1)])
    (by linarith [hI0 (l - 1)]) (hJ0 l)

lemma specPtrbfT_mono (I J O P : List Int) (hlenIJ : J.length = I.length)
    (hlenOP : P.length = O.length)
    (hI0 : ∀ j, 0 ≤ (0 :: I).getD j 0) (hJ0 : ∀ j, 0 ≤ (0 :: J).getD j 0)
    (hO0 : ∀ j, 0 ≤ O.getD j 0) (hP0 : ∀ j, 0 ≤ P.getD j 0)
    (hIle : ∀ j, (0 :: I).getD j 0 ≤ (0 :: J).getD j 0)
    (hOle : ∀ j, O.getD j 0 ≤ P.getD j 0) :
    specPtrbfT I O ≤ specPtrbfT J P := by
  unfold specPtrbfT
  have hc : (0 :: J).length = (0 :: I).length := by simp [hlenIJ]
  rw [hc, hlenOP]
  apply add_le_add
  apply add_le_add
  · apply mul_le_mul_of_nonneg_left _ (by norm_num)
    apply List.sum_le_sum
    intro l _
    exact mul_le_mul (hIle l) (by linarith [hOle (l - 1), hOle l])
      (by linarith [hO0 (l - 1), hO0 l]) (hJ0 l)
  · apply mul_le_mul_of_nonneg_left _ (by norm_num)
    apply List.sum_le_sum
    intro l _
    exact mul_le_mul (hOle l) (by linarith [hIle (l + 1)])
      (by linarith [hI0 (l + 1)]) (hP0 l)
  · linarith [hOle (O.length - 1)]

lemma specPtrbfI_mono (I J O P : List Int) (hlenIJ : J.length = I.length)
    (hlenOP : P.length = O.length)
    (hI0 : ∀ j, 0 ≤ (0 :: I).getD j 0) (hJ0 : ∀ j, 0 ≤ (0 :: J).getD j 0)
    (hO0 : ∀ j, 0 ≤ O.getD j 0) (hP0 : ∀ j, 0 ≤ P.getD j 0)
    (hIle : ∀ j, (0 :: I).getD j 0 ≤ (0 :: J).getD j 0)
    (hOle : ∀ j, O.getD j 0 ≤ P.getD j 0) :
    specPtrbfI I O ≤ specPtrbfI J P := by
  unfold specPtrbfI
  have hc : (0 :: J).length = (0 :: I).length := by simp [hlenIJ]
  rw [hc]
  apply mul_le_mul_of_nonneg_left _ (by norm_num)
  apply List.sum_le_sum
  intro l _
  exact mul_le_mul (hIle l) (by linarith [hOle (l - 1), hOle l])
    (by linarith [hO0 (l - 1), hO0 l]) (hJ0 l)

/-- Facts about replacing entry `k` of a non-negative list by a value larger
by `d ≥ 0`: length is preserved, entries grow pointwise, and stay
non-negative. -/
lemma set_incr_facts (I : List Int) (k : Nat) (d : Int) (hd : 0 ≤ d) (hk : k < I.length)
    (hnn : ∀ x ∈ I, 0 ≤ x) :
    (I.set k (I.getD k 0 + d)).length = I.length ∧
    (∀ j, I.getD j 0 ≤ (I.set k (I.getD k 0 + d)).getD j 0) ∧
    (∀ j, 0 ≤ (I.set k (I.getD k 0 + d)).getD j 0) := by
  refine ⟨List.length_set .., ?_, ?_⟩
  · intro j
    by_cases hj : j = k
    · subst hj
      rw [getD_set_same I j _ hk]
      linarith
    · rw [getD_set_other I k _ j hj]
  · intro j
    by_cases hj : j = k
    · subst hj
      rw [getD_set_same I j _ hk]
      have := getD_nonneg I hnn j
      linarith
    · rw [getD_set_other I k _ j hj]
      exact getD_nonneg I hnn j

lemma cons_getD_le (I J : List Int) (h : ∀ j, I.getD j 0 ≤ J.getD j 0) :
    ∀ j, (0 :: I).getD j 0 ≤ (0 :: J).getD j 0 := by
  intro j
  cases j with
  | zero => simp
  | succ n => simpa using h n

lemma cons_getD_nonneg (I : List Int) (h : ∀ j, 0 ≤ I.getD j 0) :
    ∀ j, 0 ≤ (0 :: I).getD j 0 := by
  intro j
  cases j with
  | zero => simp
  | succ n => simpa using h n

/-! ### The claims -/

/-- C1: each of the six literal scenarios in the spec is reproduced exactly. -/
theorem c1_literal_scenarios :
    cvfnn_complexity [6, 97, 3] = some (8948, 3492) ∧
    scfnn_complexity [6, 97, 3] = some (8942, 3492) ∧
    mlmvn_complexity [6, 97, 3] = some (9736, 3892) ∧
    crbf_complexity 6 100 3 = (4712, 1900) ∧
    fcrbf_complexity 6 100 3 = (12012, 3600) ∧
    ptrbf_complexity [50, 50] [6, 50, 3] = some (54412, 16400) := by
  refine ⟨?_, ?_, ?_, ?_, ?_, ?_⟩ <;> rfl

/-- C2: for every non-negative integer sequence `I` of length ≥ 3,
`cvfnn_complexity I` returns the pair
`(4 * Σ_{l=1}^{len-2} I[l]*(2*I[l-1]+I[l+1]+2) + 8*I[-1]*(I[-2]+1),
  4 * Σ_{l=1}^{len-1} I[l]*I[l-1])`. -/
theorem c2_cvfnn_closed_form (I : List Int) (hlen : 3 ≤ I.length)
    (hnn : ∀ x ∈ I, 0 ≤ x) :
    cvfnn_complexity I = some (specCvfnnT I, specFnnInf I) :=
  cvfnn_complexity_eq I (by omega)

theorem c2_cvfnn_closed_form_witness :
    cvfnn_complexity [6, 97, 3] = some (specCvfnnT [6, 97, 3], specFnnInf [6, 97, 3]) :=
  c2_cvfnn_closed_form [6, 97, 3] (by decide) (by decide)

/-- C3: for non-negative `I`, `O` with `len(O) = len(I) + 1`,
`ptrbf_complexity I O` prepends the sentinel 0 to `I` and returns the
spec's training and inference formulas over the prepended list. -/
theorem c3_ptrbf_closed_form (I O : List Int) (hlen : O.length = I.length + 1)
    (hnnI : ∀ x ∈ I, 0 ≤ x) (hnnO : ∀ x ∈ O, 0 ≤ x) :
    ptrbf_complexity I O = some (specPtrbfT I O, specPtrbfI I O) :=
  ptrbf_complexity_eq I O hlen

theorem c3_ptrbf_closed_form_witness :
    ptrbf_complexity [50, 50] [6, 50, 3] =
      some (specPtrbfT [50, 50] [6, 50, 3], specPtrbfI [50, 50] [6, 50, 3]) :=
  c3_ptrbf_closed_form [50, 50] [6, 50, 3] (by decide) (by decide) (by decide)

/-- C4 counterexample: at the valid non-negative length-2 input `[1, 0]`, the
CVFNN and SCFNN training costs are both 0, so "their training costs differ"
fails as a universal statement. -/
theorem c4_counterexample :
    (2 ≤ ([1, 0] : List Int).length) ∧ (∀ x ∈ ([1, 0] : List Int), 0 ≤ x) ∧
    cvfnn_complexity [1, 0] = some (0, 0) ∧
    scfnn_complexity [1, 0] = some (0, 0) :=
  ⟨by decide, by decide, rfl, rfl⟩

/-- C4 (amended): CVFNN and SCFNN inference costs coincide and equal the
spec formula; the training costs differ (CVFNN strictly larger) whenever the
final layer width `I[-1]` is positive. -/
theorem c4_inference_equal (I : List Int) (h : 2 ≤ I.length)
    (hnn : ∀ x ∈ I, 0 ≤ x) :
    ∃ tc ic ts is2,
      cvfnn_complexity I = some (tc, ic) ∧ scfnn_complexity I = some (ts, is2) ∧
      ic = specFnnInf I ∧ is2 = specFnnInf I ∧
      (0 < I.getD (I.length - 1) 0 → ts < tc) := by
  refine ⟨specCvfnnT I, specFnnInf I, specScfnnT I, specFnnInf I,
    cvfnn_complexity_eq I h, scfnn_complexity_eq I h, rfl, rfl, ?_⟩
  intro hpos
  have hgap : specCvfnnT I = specScfnnT I + 2 * I.getD (I.length - 1) 0 := by
    unfold specCvfnnT specScfnnT
    ring
  linarith

theorem c4_inference_equal_witness :
    ∃ tc ic ts is2,
      cvfnn_complexity [6, 97, 3] = some (tc, ic) ∧
      scfnn_complexity [6, 97, 3] = some (ts, is2) ∧
      ic = specFnnInf [6, 97, 3] ∧ is2 = specFnnInf [6, 97, 3] ∧
      (0 < ([6, 97, 3] : List Int).getD (([6, 97, 3] : List Int).length - 1) 0 → ts < tc) :=
  c4_inference_equal [6, 97, 3] (by decide) (by decide)

/-- C5: for each of the six functions, increasing any single layer width (or
scalar count) of a valid non-negative input by any positive amount never
decreases either the training cost or the inference cost. -/
theorem c5_monotonicity :
    (∀ (I : List Int) (k : Nat) (d : Int), 2 ≤ I.length → (∀ x ∈ I, 0 ≤ x) →
      0 < d → k < I.length →
      ∃ p q, cvfnn_complexity I = some p ∧
        cvfnn_complexity (I.set k (I.getD k 0 + d)) = some q ∧
        p.1 ≤ q.1 ∧ p.2 ≤ q.2) ∧
    (∀ (I : List Int) (k : Nat) (d : Int), 2 ≤ I.length → (∀ x ∈ I, 0 ≤ x) →
      0 < d → k < I.length →
      ∃ p q, scfnn_complexity I = some p ∧
        scfnn_complexity (I.set k (I.getD k 0 + d)) = some q ∧
        p.1 ≤ q.1 ∧ p.2 ≤ q.2) ∧
    (∀ (I : List Int) (k : Nat) (d : Int), 2 ≤ I.length → (∀ x ∈ I, 0 ≤ x) →
      0 < d → k < I.length →
      ∃ p q, mlmvn_complexity I = some p ∧
        mlmvn_complexity (I.set k (I.getD k 0 + d)) = some q ∧
        p.1 ≤ q.1 ∧ p.2 ≤ q.2) ∧
    (∀ inp neurons out d : Int, 0 ≤ inp → 0 ≤ neurons → 0 ≤ out → 0 < d →
      ((crbf_complexity inp neurons out).1 ≤ (crbf_complexity (inp + d) neurons out).1 ∧
       (crbf_complexity inp neurons out).2 ≤ (crbf_complexity (inp + d) neurons out).2) ∧
      ((crbf_complexity inp neurons out).1 ≤ (crbf_complexity inp (neurons + d) out).1 ∧
       (crbf_complexity inp neurons out).2 ≤ (crbf_complexity inp (neurons + d) out).2) ∧
      ((crbf_complexity inp neurons out).1 ≤ (crbf_complexity inp neurons (out + d)).1 ∧
       (crbf_complexity inp neurons out).2 ≤ (crbf_complexity inp neurons (out + d)).2)) ∧
    (∀ inp neurons out d : Int, 0 ≤ inp → 0 ≤ neurons → 0 ≤ out → 0 < d →
      ((fcrbf_complexity inp neurons out).1 ≤ (fcrbf_complexity (inp + d) neurons out).1 ∧
       (fcrbf_complexity inp neurons out).2 ≤ (fcrbf_complexity (inp + d) neurons out).2) ∧
      ((fcrbf_complexity inp neurons out).1 ≤ (fcrbf_complexity inp (neurons + d) out).1 ∧
       (fcrbf_complexity inp neurons out).2 ≤ (fcrbf_complexity inp (neurons + d) out).2) ∧
      ((fcrbf_complexity inp neurons out).1 ≤ (fcrbf_complexity inp neurons (out + d)).1 ∧
       (fcrbf_complexity inp neurons out).2 ≤ (fcrbf_complexity inp neurons (out + d)).2)) ∧
    (∀ (I O : List Int) (k : Nat) (d : Int), O.length = I.length + 1 →
      (∀ x ∈ I, 0 ≤ x) → (∀ x ∈ O, 0 ≤ x) → 0 < d →
      (k < I.length →
        ∃ p q, ptrbf_complexity I O = some p ∧
          ptrbf_complexity (I.set k (I.getD k 0 + d)) O = some q ∧
          p.1 ≤ q.1 ∧ p.2 ≤ q.2) ∧
      (k < O.length →
        ∃ p q, ptrbf_complexity I O = some p ∧
          ptrbf_complexity I (O.set k (O.getD k 0 + d)) = some q ∧
          p.1 ≤ q.1 ∧ p.2 ≤ q.2)) := by
  refine ⟨?_, ?_, ?_, ?_, ?_, ?_⟩
  · intro I k d hlen2 hnn hd hk
    obtain ⟨hLen, hle, hnn'⟩ := set_incr_facts I k d hd.le hk hnn
    refine ⟨(specCvfnnT I, specFnnInf I), (specCvfnnT _, specFnnInf _),
      cvfnn_complexity_eq I hlen2, cvfnn_complexity_eq _ (by omega), ?_, ?_⟩
    · exact specCvfnnT_mono I _ hLen (getD_nonneg I hnn) hnn' hle
    · exact specFnnInf_mono I _ hLen (getD_nonneg I hnn) hnn' hle
  · intro I k d hlen2 hnn hd hk
    obtain ⟨hLen, hle, hnn'⟩ := set_incr_facts I k d hd.le hk hnn
    refine ⟨(specScfnnT I, specFnnInf I), (specScfnnT _, specFnnInf _),
      scfnn_complexity_eq I hlen2, scfnn_complexity_eq _ (by omega), ?_, ?_⟩
    · exact specScfnnT_mono I _ hLen (getD_nonneg I hnn) hnn' hle
    · exact specFnnInf_mono I _ hLen (getD_nonneg I hnn) hnn' hle
  · intro I k d hlen2 hnn hd hk
    obtain ⟨hLen, hle, hnn'⟩ := set_incr_facts I k d hd.le hk hnn
    refine ⟨(specMlmvnT I, specMlmvnI I), (specMlmvnT _, specMlmvnI _),
      mlmvn_complexity_eq I hlen2, mlmvn_complexity_eq _ (by omega), ?_, ?_⟩
    · exact specMlmvnT_mono I _ hLen (getD_nonneg I hnn) hnn' hle
    · exact specMlmvnI_mono I _ hLen (getD_nonneg I hnn) hnn' hle
  · intro inp neurons out d h1 h2 h3 hd
    refine ⟨⟨?_, ?_⟩, ⟨?_, ?_⟩, ⟨?_, ?_⟩⟩ <;>
      · simp only [crbf_complexity]
        nlinarith [mul_nonneg h2 hd.le, mul_nonneg hd.le h1, mul_nonneg hd.le h3, hd.le]
  · intro inp neurons out d h1 h2 h3 hd
    refine ⟨⟨?_, ?_⟩, ⟨?_, ?_⟩, ⟨?_, ?_⟩⟩ <;>
      · simp only [fcrbf_complexity]
        nlinarith [mul_nonneg h2 hd.le, mul_nonneg hd.le h1, mul_nonneg hd.le h3, hd.le]
  · intro I O k d hOl hnnI hnnO hd
    constructor
    · intro hk
      obtain ⟨hLen, hle, hnn'⟩ := set_incr_facts I k d hd.le hk hnnI
      refine ⟨(specPtrbfT I O, specPtrbfI I O), (specPtrbfT _ O, specPtrbfI _ O),
        ptrbf_complexity_eq I O hOl, ptrbf_complexity_eq _ O (by omega), ?_, ?_⟩
      · exact specPtrbfT_mono I _ O O hLen rfl
          (cons_getD_nonneg I (getD_nonneg I hnnI)) (cons_getD_nonneg _ hnn')
          (getD_nonneg O hnnO) (getD_nonneg O hnnO)
          (cons_getD_le I _ hle) (fun j => le_refl _)
      · exact specPtrbfI_mono I _ O O hLen rfl
          (cons_getD_nonneg I (getD_nonneg I hnnI)) (cons_getD_nonneg _ hnn')
          (getD_nonneg O hnnO) (getD_nonneg O hnnO)
          (cons_getD_le I _ hle) (fun j => le_refl _)
    · intro hk
      obtain ⟨hLen, hle, hnn'⟩ := set_incr_facts O k d hd.le hk hnnO
      refine ⟨(specPtrbfT I O, specPtrbfI I O), (specPtrbfT I _, specPtrbfI I _),
        ptrbf_complexity_eq I O hOl, ptrbf_complexity_eq I _ (by omega), ?_, ?_⟩
      · exact specPtrbfT_mono I I O _ rfl hLen
          (cons_getD_nonneg I (getD_nonneg I hnnI)) (cons_getD_nonneg I (getD_nonneg I hnnI))
          (getD_nonneg O hnnO) hnn'
          (fun j => le_refl _) hle
      · exact specPtrbfI_mono I I O _ rfl hLen
          (cons_getD_nonneg I (getD_nonneg I hnnI)) (cons_getD_nonneg I (getD_nonneg I hnnI))
          (getD_nonneg O hnnO) hnn'
          (fun j => le_refl _) hle

theorem c5_monotonicity_witness :
    (∃ p q, cvfnn_complexity [1, 1, 1] = some p ∧
      cvfnn_complexity (([1, 1, 1] : List Int).set 1 (([1, 1, 1] : List Int).getD 1 0 + 1)) = some q ∧
      p.1 ≤ q.1 ∧ p.2 ≤ q.2) ∧
    (∃ p q, scfnn_complexity [1, 1, 1] = some p ∧
      scfnn_complexity (([1, 1, 1] : List Int).set 1 (([1, 1, 1] : List Int).getD 1 0 + 1)) = some q ∧
      p.1 ≤ q.1 ∧ p.2 ≤ q.2) ∧
    (∃ p q, mlmvn_complexity [1, 1, 1] = some p ∧
      mlmvn_complexity (([1, 1, 1] : List Int).set 1 (([1, 1, 1] : List Int).getD 1 0 + 1)) = some q ∧
      p.1 ≤ q.1 ∧ p.2 ≤ q.2) ∧
    ((crbf_complexity 1 1 1).1 ≤ (crbf_complexity (1 + 1) 1 1).1 ∧
     (crbf_complexity 1 1 1).2 ≤ (crbf_complexity (1 + 1) 1 1).2) ∧
    ((fcrbf_complexity 1 1 1).1 ≤ (fcrbf_complexity (1 + 1) 1 1).1 ∧
     (fcrbf_complexity 1 1 1).2 ≤ (fcrbf_complexity (1 + 1) 1 1).2) ∧
    (∃ p q, ptrbf_complexity [1] [1, 1] = some p ∧
      ptrbf_complexity (([1] : List Int).set 0 (([1] : List Int).getD 0 0 + 1)) [1, 1] = some q ∧
      p.1 ≤ q.1 ∧ p.2 ≤ q.2) :=
  ⟨c5_monotonicity.1 [1, 1, 1] 1 1 (by decide) (by decide) (by decide) (by decide),
   c5_monotonicity.2.1 [1, 1, 1] 1 1 (by decide) (by decide) (by decide) (by decide),
   c5_monotonicity.2.2.1 [1, 1, 1] 1 1 (by decide) (by decide) (by decide) (by decide),
   (c5_monotonicity.2.2.2.1 1 1 1 1 (by decide) (by decide) (by decide) (by decide)).1,
   (c5_monotonicity.2.2.2.2.1 1 1 1 1 (by decide) (by decide) (by decide) (by decide)).1,
   (c5_monotonicity.2.2.2.2.2 [1] [1, 1] 0 1 (by decide) (by decide) (by decide)
     (by decide)).1 (by decide)⟩

/-- C6: for each of the six functions, on valid non-negative inputs both
components of the returned pair are non-negative. -/
theorem c6_nonneg :
    (∀ I : List Int, 2 ≤ I.length → (∀ x ∈ I, 0 ≤ x) →
      ∃ t i, cvfnn_complexity I = some (t, i) ∧ 0 ≤ t ∧ 0 ≤ i) ∧
    (∀ I : List Int, 2 ≤ I.length → (∀ x ∈ I, 0 ≤ x) →
      ∃ t i, scfnn_complexity I = some (t, i) ∧ 0 ≤ t ∧ 0 ≤ i) ∧
    (∀ I : List Int, 2 ≤ I.length → (∀ x ∈ I, 0 ≤ x) →
      ∃ t i, mlmvn_complexity I = some (t, i) ∧ 0 ≤ t ∧ 0 ≤ i) ∧
    (∀ inp neurons out : Int, 0 ≤ inp → 0 ≤ neurons → 0 ≤ out →
      0 ≤ (crbf_complexity inp neurons out).1 ∧ 0 ≤ (crbf_complexity inp neurons out).2) ∧
    (∀ inp neurons out : Int, 0 ≤ inp → 0 ≤ neurons → 0 ≤ out →
      0 ≤ (fcrbf_complexity inp neurons out).1 ∧ 0 ≤ (fcrbf_complexity inp neurons out).2) ∧
    (∀ I O : List Int, O.length = I.length + 1 →
      (∀ x ∈ I, 0 ≤ x) → (∀ x ∈ O, 0 ≤ x) →
      ∃ t i, ptrbf_complexity I O = some (t, i) ∧ 0 ≤ t ∧ 0 ≤ i) := by
  refine ⟨?_, ?_, ?_, ?_, ?_, ?_⟩
  · intro I h hnn
    exact ⟨_, _, cvfnn_complexity_eq I h, specCvfnnT_nonneg I hnn, specFnnInf_nonneg I hnn⟩
  · intro I h hnn
    exact ⟨_, _, scfnn_complexity_eq I h, specScfnnT_nonneg I hnn, specFnnInf_nonneg I hnn⟩
  · intro I h hnn
    exact ⟨_, _, mlmvn_complexity_eq I h, specMlmvnT_nonneg I hnn, specMlmvnI_nonneg I hnn⟩
  · intro inp neurons out h1 h2 h3
    constructor <;>
      · simp only [crbf_complexity]
        nlinarith [mul_nonneg h2 h1, mul_nonneg h2 h3, h2, h3]
  · intro inp neurons out h1 h2 h3
    constructor <;>
      · simp only [fcrbf_complexity]
        nlinarith [mul_nonneg h2 h1, mul_nonneg h2 h3, h2, h3]
  · intro I O hlen hnnI hnnO
    exact ⟨_, _, ptrbf_complexity_eq I O hlen,
      specPtrbfT_nonneg I O hnnI hnnO, specPtrbfI_nonneg I O hnnI hnnO⟩

theorem c6_nonneg_witness :
    (∃ t i, cvfnn_complexity [6, 97, 3] = some (t, i) ∧ 0 ≤ t ∧ 0 ≤ i) ∧
    (∃ t i, scfnn_complexity [6, 97, 3] = some (t, i) ∧ 0 ≤ t ∧ 0 ≤ i) ∧
    (∃ t i, mlmvn_complexity [6, 97, 3] = some (t, i) ∧ 0 ≤ t ∧ 0 ≤ i) ∧
    (0 ≤ (crbf_complexity 6 100 3).1 ∧ 0 ≤ (crbf_complexity 6 100 3).2) ∧
    (0 ≤ (fcrbf_complexity 6 100 3).1 ∧ 0 ≤ (fcrbf_complexity 6 100 3).2) ∧
    (∃ t i, ptrbf_complexity [50, 50] [6, 50, 3] = some (t, i) ∧ 0 ≤ t ∧ 0 ≤ i) :=
  ⟨c6_nonneg.1 [6, 97, 3] (by decide) (by decide),
   c6_nonneg.2.1 [6, 97, 3] (by decide) (by decide),
   c6_nonneg.2.2.1 [6, 97, 3] (by decide) (by decide),
   c6_nonneg.2.2.2.1 6 100 3 (by decide) (by decide) (by decide),
   c6_nonneg.2.2.2.2.1 6 100 3 (by decide) (by decide) (by decide),
   c6_nonneg.2.2.2.2.2 [50, 50] [6, 50, 3] (by decide) (by decide) (by decide)⟩

/-- C7: on every non-negative sequence of length exactly 2, CVFNN, SCFNN and
MLMVN evaluate without an index error: the interior sum is empty and only
the output term and the inference sum remain. -/
theorem c7_length_two (I : List Int) (hlen : I.length = 2) (hnn : ∀ x ∈ I, 0 ≤ x) :
    cvfnn_complexity I =
      some (8 * I.getD 1 0 * (I.getD 0 0 + 1), 4 * (I.getD 1 0 * I.getD 0 0)) ∧
    scfnn_complexity I =
      some (2 * I.getD 1 0 * (4 * I.getD 0 0 + 3), 4 * (I.getD 1 0 * I.getD 0 0)) ∧
    mlmvn_complexity I =
      some (4 * I.getD 1 0 * (2 * I.getD 0 0 + 3), 4 * (I.getD 1 0 * (I.getD 0 0 + 1))) := by
  obtain ⟨a, b, rfl⟩ : ∃ a b, I = [a, b] := by
    rcases I with _ | ⟨a, _ | ⟨b, _ | ⟨c, t⟩⟩⟩ <;> simp at hlen
    exact ⟨a, b, rfl⟩
  refine ⟨?_, ?_, ?_⟩
  · rw [cvfnn_complexity_eq [a, b] (by simp)]
    simp [specCvfnnT, specFnnInf]
  · rw [scfnn_complexity_eq [a, b] (by simp)]
    simp [specScfnnT, specFnnInf]
  · rw [mlmvn_complexity_eq [a, b] (by simp)]
    simp [specMlmvnT, specMlmvnI]

theorem c7_length_two_witness :
    cvfnn_complexity [5, 4] =
      some (8 * ([5, 4] : List Int).getD 1 0 * (([5, 4] : List Int).getD 0 0 + 1),
        4 * (([5, 4] : List Int).getD 1 0 * ([5, 4] : List Int).getD 0 0)) ∧
    scfnn_complexity [5, 4] =
      some (2 * ([5, 4] : List Int).getD 1 0 * (4 * ([5, 4] : List Int).getD 0 0 + 3),
        4 * (([5, 4] : List Int).getD 1 0 * ([5, 4] : List Int).getD 0 0)) ∧
    mlmvn_complexity [5, 4] =
      some (4 * ([5, 4] : List Int).getD 1 0 * (2 * ([5, 4] : List Int).getD 0 0 + 3),
        4 * (([5, 4] : List Int).getD 1 0 * (([5, 4] : List Int).getD 0 0 + 1))) :=
  c7_length_two [5, 4] (by decide) (by decide)

/-- C8 counterexample: no validation happens on negative widths — the
functions silently return a complete (possibly nonsensical) cost pair
instead of raising: `crbf_complexity (-1) 1 1 = (11, 1)` and
`cvfnn_complexity [3, -1, 2] = some (-40, -20)`. -/
theorem c8_counterexample :
    crbf_complexity (-1) 1 1 = (11, 1) ∧
    cvfnn_complexity [3, -1, 2] = some (-40, -20) :=
  ⟨rfl, rfl⟩

/-- C8 (amended): the code performs no input validation.  Negative widths
and scalar counts are accepted and a complete pair is silently returned
(even a negative "cost"); a PT-RBF call with `len(O) > len(I) + 1` also
silently returns a pair; only an actual out-of-range index access — e.g.
`len(O) < len(I) + 1`, or an input sequence shorter than 2 for the
feed-forward networks — raises an `IndexError` (modelled as `none`). -/
theorem c8_no_validation :
    crbf_complexity (-1) 1 1 = (11, 1) ∧
    fcrbf_complexity (-1) 1 1 = (16, 0) ∧
    cvfnn_complexity [3, -1, 2] = some (-40, -20) ∧
    ptrbf_complexity [1] [1, 2, 3] = some (52, 12) ∧
    ptrbf_complexity [1] [] = none ∧
    cvfnn_complexity [] = none :=
  ⟨rfl, rfl, rfl, rfl, rfl, rfl⟩

/-- C9: for every integer sequence of length ≥ 2, the CVFNN result equals
the SCFNN result with the training cost shifted up by exactly `2 * I[-1]`
(the interior sums are identical and
`8*I[-1]*(I[-2]+1) - 2*I[-1]*(4*I[-2]+3) = 2*I[-1]`). -/
theorem c9_training_gap (I : List Int) (h : 2 ≤ I.length) :
    cvfnn_complexity I =
      (scfnn_complexity I).map (fun p => (p.1 + 2 * I.getD (I.length - 1) 0, p.2)) := by
  rw [cvfnn_complexity_eq I h, scfnn_complexity_eq I h, Option.map_some']
  have hgap : specCvfnnT I = specScfnnT I + 2 * I.getD (I.length - 1) 0 := by
    unfold specCvfnnT specScfnnT
    ring
  rw [hgap]

theorem c9_training_gap_witness :
    cvfnn_complexity [6, 97, 3] =
      (scfnn_complexity [6, 97, 3]).map
        (fun p =>
          (p.1 + 2 * ([6, 97, 3] : List Int).getD (([6, 97, 3] : List Int).length - 1) 0,
           p.2)) :=
  c9_training_gap [6, 97, 3] (by decide)

/-- C10: `ptrbf_complexity` does not modify its arguments.  In the heap
model, `I = [0] + I` allocates a fresh list object and rebinds the local
name only: after the call the caller's objects behind `rI` and `rO` are
unchanged, and the result is the value-level `ptrbf_complexity` of their
contents. -/
theorem c10_no_mutation (h : PyHeap) (rI rO : Nat) (hI : rI < h.next) (hO : rO < h.next) :
    (ptrbf_complexity_heap h rI rO).1.objs rI = h.objs rI ∧
    (ptrbf_complexity_heap h rI rO).1.objs rO = h.objs rO ∧
    (ptrbf_complexity_heap h rI rO).2 = ptrbf_complexity (h.objs rI) (h.objs rO) := by
  unfold ptrbf_complexity_heap pyAlloc ptrbf_complexity
  refine ⟨?_, ?_, ?_⟩
  · simp [Nat.ne_of_lt hI]
  · simp [Nat.ne_of_lt hO]
  · simp [Nat.ne_of_lt hO]

theorem c10_no_mutation_witness :
    (ptrbf_complexity_heap heapExample 0 1).1.objs 0 = heapExample.objs 0 ∧
    (ptrbf_complexity_heap heapExample 0 1).1.objs 1 = heapExample.objs 1 ∧
    (ptrbf_complexity_heap heapExample 0 1).2 =
      ptrbf_complexity (heapExample.objs 0) (heapExample.objs 1) :=
  c10_no_mutation heapExample 0 1 (by decide) (by decide)
